import Mathlib

/-!
Shallow embedding of the core of the `load_test_tool` repository
(src/config.rs, src/factory.rs, src/tasks.rs, src/appstate.rs).

Modelling conventions:
* `usize` is modelled as `Nat`; `usize::MAX` on the 64-bit targets the tool
  builds for is the explicit constant `USIZE_MAX = 2 ^ 64 - 1`.
* The filesystem read `std::fs::read_to_string` is modelled by a parameter
  `fs : String → Option String` (`some contents` on success, `none` on a read
  error).
* The transport outcome of `request_builder.send().await` is modelled by a
  parameter `resp : Option Nat`: `some code` is a transport success carrying
  the HTTP status code, `none` is a transport-level failure.  The measured
  elapsed time is the parameter `duration` (milliseconds).
* `HashMap` iteration is modelled on association lists; `HashMap::insert`
  replaces an existing binding of the same key.
-/

namespace LoadTool

/-- HTTP methods supported by the tool (config.rs, enum `HttpMethod`). -/
inductive HttpMethod
  | GET
  | POST
  | PUT
  | DELETE
deriving DecidableEq

/-- Load-test profile (config.rs, struct `LoadTestConfig`): all fields optional. -/
structure LoadTestConfig where
  initial_load : Option Nat
  max_load : Option Nat
  spawn_rate : Option Nat
  retry_count : Option Nat
  max_duration_secs : Option Nat
deriving DecidableEq

/-- The `Default` impl for `LoadTestConfig` (config.rs lines 27-37). -/
def LoadTestConfig.default : LoadTestConfig :=
  { initial_load := some 1
    max_load := some 10
    spawn_rate := some 1
    retry_count := some 0
    max_duration_secs := some 60 }

/-- Endpoint configuration (config.rs, struct `ApiConfig`).  The Rust header
map `HashMap<String, String>` is modelled as an association list. -/
structure ApiConfig where
  name : String
  task_order : Option Nat
  url : String
  headers : List (String × String)
  expected_field : String
  response_time_threshold : Nat
  method : HttpMethod
  body : Option String
  body_file : Option String
  load_test : Option Bool
  load_test_config : Option LoadTestConfig
deriving DecidableEq

/-- Top-level settings (config.rs, struct `Settings`). -/
structure Settings where
  apis : List ApiConfig
  monitoring_interval_seconds : Nat
  log_level : String
  http_timeout_seconds : Nat
  http_proxy_url : Option String
  http_default_headers : List (String × String)
deriving DecidableEq

/-- `usize::MAX` on the 64-bit targets the tool is built for. -/
def USIZE_MAX : Nat := 2 ^ 64 - 1

/-- Validity of one header-name character, following
`http::header::HeaderName::from_str`: an RFC 7230 token character
(alphanumeric — uppercase is accepted and normalised — or one of
specific punctuation bytes). -/
def validHeaderNameChar (c : Char) : Bool :=
  decide ((97 ≤ c.toNat ∧ c.toNat ≤ 122) ∨ (65 ≤ c.toNat ∧ c.toNat ≤ 90) ∨
    (48 ≤ c.toNat ∧ c.toNat ≤ 57) ∨
    c.toNat ∈ [33, 35, 36, 37, 38, 39, 42, 43, 45, 46, 94, 95, 96, 124, 126])

/-- Validity of a full header name: non-empty, all characters token characters
(`HeaderName::from_str` rejects the empty string and any non-token byte). -/
def validHeaderName (s : String) : Bool :=
  !s.isEmpty && s.data.all validHeaderNameChar

/-- Validity of one header-value character, following
`http::header::HeaderValue::from_str`: horizontal tab, or any byte that is
at least 32 and is not DEL (127).  Characters above 127 encode to UTF-8
bytes that are all accepted. -/
def validHeaderValueChar (c : Char) : Bool :=
  decide (c.toNat = 9 ∨ (32 ≤ c.toNat ∧ c.toNat ≠ 127))

/-- Validity of a full header value under `HeaderValue::from_str`. -/
def validHeaderValue (s : String) : Bool :=
  s.data.all validHeaderValueChar

/-- The header-resolution loop of `create_request_builder` (factory.rs lines
31-39): iterate over the configured headers; the first pair whose name or
value fails to encode aborts with an error; otherwise all pairs are kept. -/
def buildHeaders : List (String × String) → Except String (List (String × String))
  | [] => Except.ok []
  | (k, v) :: rest =>
    if validHeaderName k && validHeaderValue v then
      match buildHeaders rest with
      | Except.ok hs => Except.ok ((k, v) :: hs)
      | Except.error e => Except.error e
    else
      Except.error ("Invalid header: " ++ k ++ ": " ++ v)

/-- The request a `RequestBuilder` describes once `create_request_builder` has
finished: method, URL, resolved headers, and the body attached to it (absent
for the GET and DELETE builders, which never call `.body(...)`). -/
structure Request where
  method : HttpMethod
  url : String
  headers : List (String × String)
  body : Option String
deriving DecidableEq

/-- `create_request_builder` (factory.rs lines 30-57): resolve headers (error
on the first unencodable pair), resolve the body (a configured `body_file` is
read — its read error is a task-level error — otherwise the inline `body`,
defaulting to the empty string), then build the request for the configured
method; only POST and PUT attach the resolved body. -/
def create_request_builder (fs : String → Option String) (api_config : ApiConfig) :
    Except String Request :=
  match buildHeaders api_config.headers with
  | Except.error e => Except.error e
  | Except.ok headers =>
    match
      (match api_config.body_file with
       | some body_file_path =>
         (match fs body_file_path with
          | some contents => Except.ok contents
          | none =>
            Except.error ("Error reading request body from file " ++ body_file_path))
       | none => Except.ok (api_config.body.getD "")) with
    | Except.error e => Except.error e
    | Except.ok body_content =>
      match api_config.method with
      | HttpMethod.POST =>
        Except.ok ⟨HttpMethod.POST, api_config.url, headers, some body_content⟩
      | HttpMethod.PUT =>
        Except.ok ⟨HttpMethod.PUT, api_config.url, headers, some body_content⟩
      | HttpMethod.DELETE =>
        Except.ok ⟨HttpMethod.DELETE, api_config.url, headers, none⟩
      | HttpMethod.GET =>
        Except.ok ⟨HttpMethod.GET, api_config.url, headers, none⟩

/-- One recorded monitoring result (tasks.rs, struct `MonitoringData`). -/
structure MonitoringData where
  status : String
  response_time : Nat
  status_code : Option Nat
  method : HttpMethod
deriving DecidableEq

/-- The write `update_app_state` performs (tasks.rs lines 144-154): it locks
`task_monitoring_data` and executes `data.insert(api_url.to_string(),
monitoring_data)` — a single-level insert keyed by the API URL alone, with
`HashMap::insert` replace-on-collision semantics.  (The `AppState` field it
writes to is declared in appstate.rs as a two-level map keyed by workflow name
and then URL; the insert statement as written supplies no workflow-name key
and does not type-check against that declared shape.) -/
def update_app_state (store : List (String × MonitoringData)) (api_url : String)
    (monitoring_data : MonitoringData) : List (String × MonitoringData) :=
  (api_url, monitoring_data) :: store.filter (fun p => !(p.1 == api_url))

/-- Lookup of the latest result recorded for a URL in the store. -/
def lookupResult (store : List (String × MonitoringData)) (url : String) :
    Option MonitoringData :=
  (store.find? (fun p => p.1 == url)).map Prod.snd

/-- `reqwest::StatusCode::is_success`: the 2xx range. -/
def is_success (code : Nat) : Bool :=
  decide (200 ≤ code ∧ code < 300)

/-- `Task::execute` (tasks.rs lines 48-110).  Builds the request via
`create_request_builder` (an error there propagates out through `?` with no
store write), sends it, measures the duration, then classifies: transport
success with a 2xx status records `OK` with the status code and returns ok;
transport success with a non-2xx status records `ERROR` with the status code
and returns an error; transport failure records `ERROR` with no status code
and returns an error.  Returns the task result paired with the store after
the run. -/
def Task.execute (fs : String → Option String) (resp : Option Nat) (duration : Nat)
    (api_config : ApiConfig) (store : List (String × MonitoringData)) :
    Except String Unit × List (String × MonitoringData) :=
  match create_request_builder fs api_config with
  | Except.error e => (Except.error e, store)
  | Except.ok _ =>
    match resp with
    | some status_code =>
      if is_success status_code then
        (Except.ok (),
         update_app_state store api_config.url
           ⟨"OK", duration, some status_code, api_config.method⟩)
      else
        (Except.error (api_config.name ++ " responded with HTTP status " ++
           toString status_code),
         update_app_state store api_config.url
           ⟨"ERROR", duration, some status_code, api_config.method⟩)
    | none =>
      (Except.error ("Failed to reach " ++ api_config.name),
       update_app_state store api_config.url
         ⟨"ERROR", duration, none, api_config.method⟩)

/-- `Task::describe` (tasks.rs lines 116-118). -/
def Task.describe (api_config : ApiConfig) : String :=
  "Task for " ++ api_config.name

/-- `Task::response_time_threshold` (tasks.rs lines 124-126): always `None`,
whatever threshold the endpoint configuration carries. -/
def Task.response_time_threshold (_ : ApiConfig) : Option Nat :=
  none

/-- `Task::get_task_order` (tasks.rs lines 132-134):
`self.api_config.task_order.unwrap_or(usize::MAX)`. -/
def Task.get_task_order (api_config : ApiConfig) : Nat :=
  api_config.task_order.getD USIZE_MAX

/-- The per-endpoint normalisation step of `validate_settings` (config.rs
lines 134-138): an endpoint marked for load testing that lacks a profile gets
the default profile substituted; every other endpoint is left unchanged. -/
def fill_defaults (api : ApiConfig) : ApiConfig :=
  if api.load_test.getD false && api.load_test_config.isNone then
    { api with load_test_config := some LoadTestConfig.default }
  else
    api

/-- The validation loop of `validate_settings` (config.rs lines 128-139):
walk the endpoint list in order; an empty URL aborts with an error; otherwise
each endpoint is normalised by `fill_defaults`. -/
def validate_apis : List ApiConfig → Except String (List ApiConfig)
  | [] => Except.ok []
  | api :: rest =>
    if api.url.isEmpty then
      Except.error ("API URL is missing in the configuration for " ++ api.name ++ ".")
    else
      match validate_apis rest with
      | Except.ok l => Except.ok (fill_defaults api :: l)
      | Except.error e => Except.error e

/-- `validate_settings` (config.rs lines 127-142), as the observable function
from the settings passed in to the validated settings handed on (the Rust
function mutates in place and returns `Result<()>`; an error makes
`load_config` fail startup, so a partially mutated value is never observed). -/
def validate_settings (settings : Settings) : Except String Settings :=
  match validate_apis settings.apis with
  | Except.ok l => Except.ok { settings with apis := l }
  | Except.error e => Except.error e

/-- Ascending sort of the group keys (`order_keys.sort()` in factory.rs line
114), realised by insertion sort. -/
def sortKeys (l : List Nat) : List Nat :=
  List.insertionSort (· ≤ ·) l

/-- The grouping phase of `start_monitoring` (factory.rs lines 105-118):
partition the tasks by `get_task_order()` into per-key groups (each group in
task-list order, as `entry().or_insert_with(Vec::new).push` preserves
insertion order) and arrange the groups by ascending key.  `order` abstracts
`ApiMonitor::get_task_order`. -/
def executeGroups {α : Type} (order : α → Nat) (tasks : List α) :
    List (Nat × List α) :=
  (sortKeys ((tasks.map order).dedup)).map
    (fun k => (k, tasks.filter (fun t => order t == k)))

/-- The execution trace of `start_monitoring` (factory.rs lines 117-132): the
groups run strictly one after the other in ascending key order — `join_all`
returns only when every future of the group has finished — and inside a group
every task is executed and its outcome logged, `Ok` or `Err` alike, the loop
continuing either way.  `outcome` abstracts the result of
`task.execute(&client)`.  The trace lists every executed task, in execution
order across the group barriers, paired with its outcome. -/
def monitorTrace {α : Type} (order : α → Nat) (outcome : α → Except String Unit)
    (tasks : List α) : List (α × Except String Unit) :=
  (((executeGroups order tasks).map Prod.snd).flatten).map (fun t => (t, outcome t))

/-- Whether the builder for a method attaches the resolved body
(factory.rs lines 48-54: only the POST and PUT arms call `.body(...)`). -/
def attachesBody : HttpMethod → Bool
  | HttpMethod.POST => true
  | HttpMethod.PUT => true
  | HttpMethod.DELETE => false
  | HttpMethod.GET => false

/-- A filesystem on which every read fails. -/
def fsEmpty : String → Option String :=
  fun _ => none

/-- A well-formed GET endpoint with no headers and no body source. -/
def cfgEx : ApiConfig :=
  { name := "health"
    task_order := some 1
    url := "http://example.com/health"
    headers := []
    expected_field := "id"
    response_time_threshold := 2000
    method := HttpMethod.GET
    body := none
    body_file := none
    load_test := some false
    load_test_config := none }

/-- An endpoint whose single header name contains a space and therefore cannot
be encoded as a `HeaderName`. -/
def cfgBadHeader : ApiConfig :=
  { cfgEx with name := "bad-header", headers := [("Bad Header", "v")] }

/-- An endpoint with no configured `task_order`. -/
def cfgNoOrder : ApiConfig :=
  { cfgEx with name := "no-order", task_order := none }

/-- An endpoint whose configured `task_order` is `usize::MAX` itself. -/
def cfgMaxOrder : ApiConfig :=
  { cfgEx with name := "max-order", task_order := some USIZE_MAX }

/-- A sample monitoring result. -/
def mdEx : MonitoringData :=
  { status := "OK", response_time := 5, status_code := some 200, method := HttpMethod.GET }

/-- A sample settings value with one well-formed endpoint. -/
def sEx : Settings :=
  { apis := [cfgEx]
    monitoring_interval_seconds := 60
    log_level := "info"
    http_timeout_seconds := 20
    http_proxy_url := none
    http_default_headers := [] }

/-- An endpoint with an empty URL. -/
def cfgNoUrl : ApiConfig :=
  { cfgEx with name := "no-url", url := "" }

/-- An endpoint flagged for load testing with no profile supplied. -/
def cfgLT : ApiConfig :=
  { cfgEx with name := "lt", load_test := some true }

/-- The load-test endpoint after default substitution. -/
def cfgLTfilled : ApiConfig :=
  { cfgEx with
      name := "lt"
      load_test := some true
      load_test_config := some LoadTestConfig.default }

/-- A POST endpoint configured with both an inline body and a body file. -/
def cfgPost : ApiConfig :=
  { cfgEx with
      name := "post"
      method := HttpMethod.POST
      body := some "inline"
      body_file := some "b.json" }

/-- A filesystem holding exactly the file `b.json`. -/
def fsFile : String → Option String :=
  fun p => if p == "b.json" then some "FILE" else none

end LoadTool

namespace LoadTool

/-- The store write makes the written result the one looked up for its URL. -/
theorem lookup_update_self (store : List (String × MonitoringData)) (u : String)
    (d : MonitoringData) : lookupResult (update_app_state store u d) u = some d := by
  simp [lookupResult, update_app_state, List.find?]

/-- If any configured header pair fails to encode, the header-resolution loop
of `create_request_builder` aborts with an error. -/
theorem buildHeaders_error_of_invalid :
    ∀ (hs : List (String × String)) (k v : String), (k, v) ∈ hs →
      (validHeaderName k && validHeaderValue v) = false →
      ∃ e, buildHeaders hs = Except.error e := by
  intro hs
  induction hs with
  | nil => intro k v hmem _; simp at hmem
  | cons p rest ih =>
    obtain ⟨pk, pv⟩ := p
    intro k v hmem hbad
    by_cases hc : (validHeaderName pk && validHeaderValue pv) = true
    · rcases List.mem_cons.mp hmem with heq | hrest
      · exfalso
        rw [Prod.mk.injEq] at heq
        rw [← heq.1, ← heq.2] at hc
        simp [hc] at hbad
      · obtain ⟨e, he⟩ := ih k v hrest hbad
        exact ⟨e, by simp [buildHeaders, hc, he]⟩
    · exact ⟨"Invalid header: " ++ pk ++ ": " ++ pv,
        by simp [buildHeaders, Bool.eq_false_iff.mpr hc]⟩

/-- Characterisation of a successful validation pass: it succeeds exactly when
no endpoint has an empty URL, and then returns the endpoint list normalised
by `fill_defaults`. -/
theorem validate_apis_ok_iff :
    ∀ (l l2 : List ApiConfig), validate_apis l = Except.ok l2 ↔
      ((∀ a ∈ l, a.url.isEmpty = false) ∧ l2 = l.map fill_defaults) := by
  intro l
  induction l with
  | nil =>
    intro l2
    simp only [validate_apis, List.map_nil, List.not_mem_nil, false_implies, implies_true,
      true_and, Except.ok.injEq]
    exact eq_comm
  | cons api rest ih =>
    intro l2
    by_cases h : api.url.isEmpty = true
    · simp only [validate_apis, h, if_pos]
      constructor
      · intro hfalse; exact absurd hfalse (by simp)
      · rintro ⟨hall, -⟩
        exact absurd (hall api (List.mem_cons_self api rest)) (by simp [h])
    · have hf : api.url.isEmpty = false := Bool.eq_false_iff.mpr h
      cases hrec : validate_apis rest with
      | ok l3 =>
        obtain ⟨hall3, hl3⟩ := (ih l3).mp hrec
        simp only [validate_apis, hf, Bool.false_eq_true, if_neg, hrec]
        constructor
        · intro hok
          have : fill_defaults api :: l3 = l2 := by
            exact (Except.ok.injEq _ _).mp hok
          subst this
          refine ⟨?_, by simp [hl3]⟩
          intro a ha
          rcases List.mem_cons.mp ha with rfl | ha2
          · exact hf
          · exact hall3 a ha2
        · rintro ⟨hall, rfl⟩
          simp [hl3]
      | error e =>
        simp only [validate_apis, hf, Bool.false_eq_true, if_neg, hrec]
        constructor
        · intro hfalse; exact absurd hfalse (by simp)
        · rintro ⟨hall, -⟩
          have : validate_apis rest = Except.ok (rest.map fill_defaults) :=
            (ih (rest.map fill_defaults)).mpr
              ⟨fun a ha => hall a (List.mem_cons_of_mem api ha), rfl⟩
          rw [hrec] at this
          exact absurd this (by simp)

/-- Validation fails exactly when some endpoint has an empty URL. -/
theorem validate_apis_error_iff (l : List ApiConfig) :
    (∃ e, validate_apis l = Except.error e) ↔ ∃ a ∈ l, a.url.isEmpty = true := by
  constructor
  · rintro ⟨e, he⟩
    by_contra hno
    push_neg at hno
    have hall : ∀ a ∈ l, a.url.isEmpty = false :=
      fun a ha => Bool.eq_false_iff.mpr (hno a ha)
    have := (validate_apis_ok_iff l (l.map fill_defaults)).mpr ⟨hall, rfl⟩
    rw [he] at this
    exact absurd this (by simp)
  · rintro ⟨a, ha, haurl⟩
    cases hres : validate_apis l with
    | ok l2 =>
      obtain ⟨hall, -⟩ := (validate_apis_ok_iff l l2).mp hres
      exact absurd (hall a ha) (by simp [haurl])
    | error e => exact ⟨e, rfl⟩

/-- C1: for every health-check execution in which the HTTP request is built
and sent, the recorded result has status `OK` exactly when the HTTP status is
in the 2xx success range (`ERROR` otherwise), and the recorded `status_code`
is present exactly when the transport succeeded (`none` exactly on a
transport-level failure). -/
theorem C1_health_check_classification (fs : String → Option String) (resp : Option Nat)
    (duration : Nat) (cfg : ApiConfig) (store : List (String × MonitoringData))
    (h : ∃ rb, create_request_builder fs cfg = Except.ok rb) :
    ∃ md, lookupResult (Task.execute fs resp duration cfg store).2 cfg.url = some md ∧
      (md.status_code.isSome ↔ resp.isSome) ∧
      (∀ code, resp = some code →
        ((md.status = "OK" ↔ is_success code = true) ∧ md.status_code = some code)) ∧
      (resp = none → md.status = "ERROR" ∧ md.status_code = none) := by
  obtain ⟨rb, hrb⟩ := h
  cases resp with
  | some code =>
    by_cases hs : is_success code = true
    · refine ⟨⟨"OK", duration, some code, cfg.method⟩, ?_, by simp, ?_, by simp⟩
      · simp [Task.execute, hrb, hs, lookup_update_self]
      · rintro c hc
        rw [Option.some.injEq] at hc
        subst hc
        simp [hs]
    · have hs2 : is_success code = false := Bool.eq_false_iff.mpr hs
      refine ⟨⟨"ERROR", duration, some code, cfg.method⟩, ?_, by simp, ?_, by simp⟩
      · simp [Task.execute, hrb, hs2, lookup_update_self]
      · rintro c hc
        rw [Option.some.injEq] at hc
        subst hc
        simp [hs2]
  | none =>
    refine ⟨⟨"ERROR", duration, none, cfg.method⟩, ?_, by simp, by simp, by simp⟩
    simp [Task.execute, hrb, lookup_update_self]

/-- C1 witness: a concrete run of the well-formed GET endpoint with a 200
response records `OK` with the status code present. -/
theorem C1_health_check_classification_witness :
    ∃ md, lookupResult (Task.execute fsEmpty (some 200) 5 cfgEx []).2 cfgEx.url = some md ∧
      (md.status_code.isSome ↔ (some 200 : Option Nat).isSome) ∧
      (∀ code, (some 200 : Option Nat) = some code →
        ((md.status = "OK" ↔ is_success code = true) ∧ md.status_code = some code)) ∧
      ((some 200 : Option Nat) = none → md.status = "ERROR" ∧ md.status_code = none) :=
  C1_health_check_classification fsEmpty (some 200) 5 cfgEx []
    ⟨⟨HttpMethod.GET, cfgEx.url, [], none⟩, rfl⟩

/-- C2: whenever the request was successfully constructed, a health-check
result for the endpoint URL is in the store when `execute` returns, in all
three outcome cases (2xx status, non-2xx status, transport failure). -/
theorem C2_result_always_written (fs : String → Option String) (resp : Option Nat)
    (duration : Nat) (cfg : ApiConfig) (store : List (String × MonitoringData))
    (h : ∃ rb, create_request_builder fs cfg = Except.ok rb) :
    (lookupResult (Task.execute fs resp duration cfg store).2 cfg.url).isSome = true := by
  obtain ⟨rb, hrb⟩ := h
  cases resp with
  | some code =>
    by_cases hs : is_success code = true
    · simp [Task.execute, hrb, hs, lookup_update_self]
    · simp [Task.execute, hrb, Bool.eq_false_iff.mpr hs, lookup_update_self]
  | none => simp [Task.execute, hrb, lookup_update_self]

/-- C2 witness: the three concrete outcome cases on the well-formed GET
endpoint each leave a recorded result. -/
theorem C2_result_always_written_witness :
    (lookupResult (Task.execute fsEmpty (some 204) 5 cfgEx []).2 cfgEx.url).isSome = true ∧
    (lookupResult (Task.execute fsEmpty (some 503) 5 cfgEx []).2 cfgEx.url).isSome = true ∧
    (lookupResult (Task.execute fsEmpty none 5 cfgEx []).2 cfgEx.url).isSome = true :=
  ⟨C2_result_always_written fsEmpty (some 204) 5 cfgEx []
      ⟨⟨HttpMethod.GET, cfgEx.url, [], none⟩, rfl⟩,
   C2_result_always_written fsEmpty (some 503) 5 cfgEx []
      ⟨⟨HttpMethod.GET, cfgEx.url, [], none⟩, rfl⟩,
   C2_result_always_written fsEmpty none 5 cfgEx []
      ⟨⟨HttpMethod.GET, cfgEx.url, [], none⟩, rfl⟩⟩

/-- C3 counterexample: on an endpoint whose header name cannot be encoded,
`execute` does return a failure, but no health-check result at all is
recorded for the endpoint — the store stays empty, so no `ERROR` result
exists for it, contrary to the claim. -/
theorem C3_counterexample :
    (Task.execute fsEmpty (some 200) 5 cfgBadHeader []).1.isOk = false ∧
    lookupResult (Task.execute fsEmpty (some 200) 5 cfgBadHeader []).2 cfgBadHeader.url =
      none := by
  exact ⟨by decide, by decide⟩

/-- C3 as amended: with an unencodable header pair, `execute` returns an
error value for that single task (the caller is handed a `Result`, not a
crash), and the monitoring store is left exactly as it was — no health-check
result, `ERROR` or otherwise, is recorded for the task. -/
theorem C3_header_error_isolated (fs : String → Option String) (resp : Option Nat)
    (duration : Nat) (cfg : ApiConfig) (store : List (String × MonitoringData))
    (k v : String) (hmem : (k, v) ∈ cfg.headers)
    (hbad : (validHeaderName k && validHeaderValue v) = false) :
    (∃ e, (Task.execute fs resp duration cfg store).1 = Except.error e) ∧
    (Task.execute fs resp duration cfg store).2 = store := by
  obtain ⟨e, he⟩ := buildHeaders_error_of_invalid cfg.headers k v hmem hbad
  have hcrb : create_request_builder fs cfg = Except.error e := by
    simp [create_request_builder, he]
  exact ⟨⟨e, by simp [Task.execute, hcrb]⟩, by simp [Task.execute, hcrb]⟩

/-- C3 witness: the concrete bad-header endpoint fails and leaves the store
untouched. -/
theorem C3_header_error_isolated_witness :
    (∃ e, (Task.execute fsEmpty (some 200) 5 cfgBadHeader []).1 = Except.error e) ∧
    (Task.execute fsEmpty (some 200) 5 cfgBadHeader []).2 = [] :=
  C3_header_error_isolated fsEmpty (some 200) 5 cfgBadHeader [] "Bad Header" "v"
    (by decide) (by decide)

/-- C4: evaluating the store write at a concrete input shows that
`update_app_state` inserts the monitoring result directly under the endpoint
URL at the top level of the table — there is no workflow-name keying level in
the write, although the `AppState` field it targets is declared (and
documented) as a two-level map keyed by workflow name and then URL. -/
theorem C4_write_keyed_by_url_only :
    update_app_state [] "http://example.com/health" mdEx =
      [("http://example.com/health", mdEx)] := rfl

/-- C7: after a successful `validate_settings` pass, every endpoint flagged
for load testing carries a profile; an endpoint that was flagged but had no
profile got exactly the default profile (initial_load 1, max_load 10,
spawn_rate 1, retry_count 0, max_duration_secs 60) substituted. -/
theorem C7_load_test_profile_defaulted (s s2 : Settings)
    (h : validate_settings s = Except.ok s2) :
    (∀ api ∈ s2.apis, api.load_test.getD false = true →
      api.load_test_config.isSome = true) ∧
    (∀ api ∈ s.apis, api.load_test.getD false = true → api.load_test_config = none →
      fill_defaults api ∈ s2.apis ∧
      (fill_defaults api).load_test_config = some LoadTestConfig.default) ∧
    LoadTestConfig.default =
      { initial_load := some 1
        max_load := some 10
        spawn_rate := some 1
        retry_count := some 0
        max_duration_secs := some 60 } := by
  cases hv : validate_apis s.apis with
  | error e => simp [validate_settings, hv] at h
  | ok l =>
    obtain ⟨-, rfl⟩ := (validate_apis_ok_iff s.apis l).mp hv
    have hs2 : s2.apis = s.apis.map fill_defaults := by
      simp [validate_settings, hv] at h
      rw [← h]
    refine ⟨?_, ?_, rfl⟩
    · intro api hapi hflag
      rw [hs2] at hapi
      obtain ⟨a, ha, rfl⟩ := List.mem_map.mp hapi
      by_cases hcond : (a.load_test.getD false && a.load_test_config.isNone) = true
      · simp [fill_defaults, hcond]
      · have hfill : fill_defaults a = a := by
          simp [fill_defaults, hcond]
        rw [hfill] at hflag ⊢
        rw [Bool.and_eq_true] at hcond
        push_neg at hcond
        cases hc : a.load_test_config with
        | none => exact absurd (by simp [hc]) (hcond hflag)
        | some c => simp
    · intro api hapi hflag hnone
      constructor
      · rw [hs2]
        exact List.mem_map_of_mem fill_defaults hapi
      · simp [fill_defaults, hflag, hnone]

/-- C7 witness: a concrete settings value with one flagged, profile-less
endpoint validates successfully and comes out carrying the default profile. -/
theorem C7_load_test_profile_defaulted_witness :
    (∀ api ∈ ({ sEx with apis := [cfgLTfilled] } : Settings).apis,
      api.load_test.getD false = true → api.load_test_config.isSome = true) ∧
    (∀ api ∈ ({ sEx with apis := [cfgLT] } : Settings).apis,
      api.load_test.getD false = true → api.load_test_config = none →
      fill_defaults api ∈ ({ sEx with apis := [cfgLTfilled] } : Settings).apis ∧
      (fill_defaults api).load_test_config = some LoadTestConfig.default) ∧
    LoadTestConfig.default =
      { initial_load := some 1
        max_load := some 10
        spawn_rate := some 1
        retry_count := some 0
        max_duration_secs := some 60 } :=
  C7_load_test_profile_defaulted { sEx with apis := [cfgLT] }
    { sEx with apis := [cfgLTfilled] } rfl

/-- C8: `validate_settings` fails exactly when some configured endpoint has an
empty URL; on success the settings are returned unchanged except that each
flagged, profile-less endpoint received the default load-test profile
(`fill_defaults` is the identity on every other endpoint). -/
theorem C8_empty_url_fatal (s : Settings) :
    ((∃ e, validate_settings s = Except.error e) ↔
      (∃ api ∈ s.apis, api.url.isEmpty = true)) ∧
    (∀ s2, validate_settings s = Except.ok s2 →
      s2.apis = s.apis.map fill_defaults ∧
      s2.monitoring_interval_seconds = s.monitoring_interval_seconds ∧
      s2.log_level = s.log_level ∧
      s2.http_timeout_seconds = s.http_timeout_seconds ∧
      s2.http_proxy_url = s.http_proxy_url ∧
      s2.http_default_headers = s.http_default_headers) ∧
    (∀ api : ApiConfig,
      ¬(api.load_test.getD false = true ∧ api.load_test_config = none) →
      fill_defaults api = api) := by
  refine ⟨?_, ?_, ?_⟩
  · rw [← validate_apis_error_iff s.apis]
    cases hv : validate_apis s.apis with
    | error e => simp [validate_settings, hv]
    | ok l => simp [validate_settings, hv]
  · intro s2 h
    cases hv : validate_apis s.apis with
    | error e => simp [validate_settings, hv] at h
    | ok l =>
      obtain ⟨-, rfl⟩ := (validate_apis_ok_iff s.apis l).mp hv
      simp [validate_settings, hv] at h
      rw [← h]
      exact ⟨rfl, rfl, rfl, rfl, rfl, rfl⟩
  · intro api hno
    have hcond : (api.load_test.getD false && api.load_test_config.isNone) = false := by
      rw [Bool.and_eq_false_iff]
      by_cases hflag : api.load_test.getD false = true
      · right
        cases hc : api.load_test_config with
        | none => exact absurd ⟨hflag, hc⟩ hno
        | some c => simp
      · left; exact Bool.eq_false_iff.mpr hflag
    simp [fill_defaults, hcond]

/-- C8 witness: the concrete settings with an empty-URL endpoint fail
validation, and the well-formed settings pass unchanged. -/
theorem C8_empty_url_fatal_witness :
    (∃ e, validate_settings { sEx with apis := [cfgNoUrl] } = Except.error e) ∧
    (validate_settings sEx = Except.ok sEx → sEx.apis = sEx.apis.map fill_defaults) :=
  ⟨(C8_empty_url_fatal { sEx with apis := [cfgNoUrl] }).1.mpr
      ⟨cfgNoUrl, by simp, by decide⟩,
   fun h => ((C8_empty_url_fatal sEx).2.1 sEx h).1⟩

/-- C9: the `Monitorable Task` interface of a health-check task surfaces no
response-time threshold — `response_time_threshold()` is `None` for every
endpoint configuration, whatever threshold value that configuration holds. -/
theorem C9_threshold_never_surfaced :
    ∀ cfg : ApiConfig, Task.response_time_threshold cfg = none ∧
      ∀ n : Nat,
        Task.response_time_threshold { cfg with response_time_threshold := n } = none :=
  fun _ => ⟨rfl, fun _ => rfl⟩

/-- C10: in request construction a configured `body_file` is always the body
source (the inline `body` is ignored when a file is configured); with no file
the inline body is used, defaulting to the empty string; a file-read failure
fails the task for every HTTP method; and the resolved body is attached to
the request only for POST and PUT, never for GET or DELETE. -/
theorem C10_body_resolution (fs : String → Option String) (cfg : ApiConfig) :
    (∀ path contents hs, cfg.body_file = some path → fs path = some contents →
      buildHeaders cfg.headers = Except.ok hs →
      create_request_builder fs cfg = Except.ok
        ⟨cfg.method, cfg.url, hs,
          if attachesBody cfg.method then some contents else none⟩) ∧
    (∀ path hs, cfg.body_file = some path → fs path = none →
      buildHeaders cfg.headers = Except.ok hs →
      create_request_builder fs cfg =
        Except.error ("Error reading request body from file " ++ path)) ∧
    (∀ hs, cfg.body_file = none → buildHeaders cfg.headers = Except.ok hs →
      create_request_builder fs cfg = Except.ok
        ⟨cfg.method, cfg.url, hs,
          if attachesBody cfg.method then some (cfg.body.getD "") else none⟩) := by
  refine ⟨?_, ?_, ?_⟩
  · intro path contents hs hfile hread hhdr
    cases hm : cfg.method <;>
      simp [create_request_builder, hhdr, hfile, hread, hm, attachesBody]
  · intro path hs hfile hread hhdr
    cases hm : cfg.method <;>
      simp [create_request_builder, hhdr, hfile, hread, hm]
  · intro hs hfile hhdr
    cases hm : cfg.method <;>
      simp [create_request_builder, hhdr, hfile, hm, attachesBody]

/-- C10 witness: the concrete POST endpoint with both an inline body and a
body file takes the file contents as its body; under the empty filesystem the
same endpoint fails for every method; and a GET with neither body source
carries no body. -/
theorem C10_body_resolution_witness :
    create_request_builder fsFile cfgPost = Except.ok
      ⟨cfgPost.method, cfgPost.url, [],
        if attachesBody cfgPost.method then some "FILE" else none⟩ ∧
    create_request_builder fsEmpty cfgPost =
      Except.error ("Error reading request body from file " ++ "b.json") ∧
    create_request_builder fsEmpty cfgEx = Except.ok
      ⟨cfgEx.method, cfgEx.url, [],
        if attachesBody cfgEx.method then some (cfgEx.body.getD "") else none⟩ :=
  ⟨(C10_body_resolution fsFile cfgPost).1 "b.json" "FILE" [] rfl rfl rfl,
   (C10_body_resolution fsEmpty cfgPost).2.1 "b.json" [] rfl rfl rfl,
   (C10_body_resolution fsEmpty cfgEx).2.2 [] rfl rfl⟩

/-- Sorting the group keys is a permutation. -/
theorem sortKeys_perm (l : List Nat) : (sortKeys l).Perm l :=
  List.perm_insertionSort _ l

/-- The sorted group keys are nondecreasing. -/
theorem sortKeys_sorted (l : List Nat) : List.Sorted (· ≤ ·) (sortKeys l) :=
  List.sorted_insertionSort _ l

/-- Membership is preserved by the key sort. -/
theorem mem_sortKeys {a : Nat} {l : List Nat} : a ∈ sortKeys l ↔ a ∈ l :=
  (sortKeys_perm l).mem_iff

/-- The key column of the grouped tasks is exactly the sorted, deduplicated
list of task order keys. -/
theorem executeGroups_keys {α : Type} (order : α → Nat) (tasks : List α) :
    (executeGroups order tasks).map Prod.fst = sortKeys ((tasks.map order).dedup) := by
  unfold executeGroups
  rw [List.map_map]
  have hid : (Prod.fst ∘ fun k => (k, tasks.filter (fun t => order t == k))) = id := rfl
  rw [hid, List.map_id]

/-- The group keys appear in strictly ascending order. -/
theorem executeGroups_keys_sorted {α : Type} (order : α → Nat) (tasks : List α) :
    List.Sorted (· < ·) ((executeGroups order tasks).map Prod.fst) := by
  rw [executeGroups_keys]
  have hle := sortKeys_sorted ((tasks.map order).dedup)
  have hnd : (sortKeys ((tasks.map order).dedup)).Nodup :=
    ((sortKeys_perm _).nodup_iff).mpr (List.nodup_dedup _)
  exact (List.Pairwise.and hle hnd).imp (fun hab => lt_of_le_of_ne hab.1 hab.2)

/-- Every member of a group has that group's key as its order key. -/
theorem executeGroups_order_eq {α : Type} (order : α → Nat) (tasks : List α) :
    ∀ p ∈ executeGroups order tasks, ∀ t ∈ p.2, order t = p.1 := by
  intro p hp t ht
  obtain ⟨k, -, rfl⟩ := List.mem_map.mp hp
  have hmem := List.mem_filter.mp ht
  simpa using hmem.2

/-- Partitioning a list into buckets over a duplicate-free key list covering
all its keys and flattening back is a permutation of the original list. -/
theorem flatten_filter_perm {α : Type} (order : α → Nat) :
    ∀ (ks : List Nat) (tasks : List α), ks.Nodup → (∀ t ∈ tasks, order t ∈ ks) →
      ((ks.map (fun k => tasks.filter (fun t => order t == k))).flatten).Perm tasks := by
  intro ks
  induction ks with
  | nil =>
    intro tasks _ hmem
    have : tasks = [] :=
      List.eq_nil_iff_forall_not_mem.mpr (fun t ht => by simpa using hmem t ht)
    subst this
    simp
  | cons k ks ih =>
    intro tasks hnd hmem
    obtain ⟨hk, hnd2⟩ := List.nodup_cons.mp hnd
    have hcong : ks.map (fun k2 => tasks.filter (fun t => order t == k2)) =
        ks.map (fun k2 =>
          (tasks.filter (fun t => !(order t == k))).filter (fun t => order t == k2)) := by
      apply List.map_congr_left
      intro k2 hk2
      have hne : k2 ≠ k := fun h => hk (h ▸ hk2)
      rw [List.filter_filter]
      apply List.filter_congr
      intro t _
      cases h2 : (order t == k2) with
      | true =>
        have : order t = k2 := by simpa using h2
        have : (order t == k) = false := by simp [this, hne]
        simp [this]
      | false => simp
    have ihr : ((ks.map (fun k2 =>
        (tasks.filter (fun t => !(order t == k))).filter
          (fun t => order t == k2))).flatten).Perm
        (tasks.filter (fun t => !(order t == k))) := by
      apply ih _ hnd2
      intro t ht
      obtain ⟨htT, hneq⟩ := List.mem_filter.mp ht
      rcases List.mem_cons.mp (hmem t htT) with h | h
      · exfalso; simp [h] at hneq
      · exact h
    have h1 : (((k :: ks).map (fun k2 =>
        tasks.filter (fun t => order t == k2))).flatten) =
        tasks.filter (fun t => order t == k) ++
          (ks.map (fun k2 =>
            (tasks.filter (fun t => !(order t == k))).filter
              (fun t => order t == k2))).flatten := by
      rw [List.map_cons, List.flatten_cons, hcong]
    rw [h1]
    exact (ihr.append_left _).trans (List.filter_append_perm _ tasks)

/-- Flattening the groups back yields a permutation of all the tasks. -/
theorem executeGroups_flatten_perm {α : Type} (order : α → Nat) (tasks : List α) :
    (((executeGroups order tasks).map Prod.snd).flatten).Perm tasks := by
  have hmapped : (executeGroups order tasks).map Prod.snd =
      (sortKeys ((tasks.map order).dedup)).map
        (fun k => tasks.filter (fun t => order t == k)) := by
    simp [executeGroups, List.map_map]
  rw [hmapped]
  apply flatten_filter_perm
  · exact ((sortKeys_perm _).nodup_iff).mpr (List.nodup_dedup _)
  · intro t ht
    rw [mem_sortKeys, List.mem_dedup]
    exact List.mem_map_of_mem order ht

/-- Along the execution trace the order keys never decrease: a task of a
later (higher-keyed) group never precedes a task of an earlier group. -/
theorem monitorTrace_pairwise {α : Type} (order : α → Nat)
    (outcome : α → Except String Unit) (tasks : List α) :
    List.Pairwise (fun a b => order a.1 ≤ order b.1)
      (monitorTrace order outcome tasks) := by
  unfold monitorTrace
  rw [List.pairwise_map]
  apply List.pairwise_flatten.mpr
  constructor
  · intro l hl
    obtain ⟨p, hp, rfl⟩ := List.mem_map.mp hl
    apply List.pairwise_of_forall_mem_list
    intro a ha b hb
    rw [executeGroups_order_eq order tasks p hp a ha,
      executeGroups_order_eq order tasks p hp b hb]
  · rw [List.pairwise_map]
    have hsorted : List.Pairwise (fun p q => p.1 < q.1) (executeGroups order tasks) :=
      List.pairwise_map.mp (executeGroups_keys_sorted order tasks)
    refine hsorted.imp_of_mem ?_
    intro p q hp hq hlt x hx y hy
    show order x ≤ order y
    rw [executeGroups_order_eq order tasks p hp x hx,
      executeGroups_order_eq order tasks q hq y hy]
    exact le_of_lt hlt

/-- C5: the orchestrator partitions the tasks into groups by order key and
runs the groups in strictly ascending key order; in the (sequential rendering
of the) execution trace every task appears exactly once whatever its outcome
— a failure halts neither its siblings nor later groups — order keys never
decrease along the trace, and every group member carries its group's key. -/
theorem C5_orchestrator_grouping {α : Type} (order : α → Nat)
    (outcome : α → Except String Unit) (tasks : List α) :
    List.Sorted (· < ·) ((executeGroups order tasks).map Prod.fst) ∧
    ((monitorTrace order outcome tasks).map Prod.fst).Perm tasks ∧
    List.Pairwise (fun a b => order a.1 ≤ order b.1)
      (monitorTrace order outcome tasks) ∧
    (∀ p ∈ executeGroups order tasks, ∀ t ∈ p.2, order t = p.1) := by
  refine ⟨executeGroups_keys_sorted order tasks, ?_,
    monitorTrace_pairwise order outcome tasks, executeGroups_order_eq order tasks⟩
  have htr : (monitorTrace order outcome tasks).map Prod.fst =
      ((executeGroups order tasks).map Prod.snd).flatten := by
    unfold monitorTrace
    rw [List.map_map]
    have hid : (Prod.fst ∘ fun t => (t, outcome t)) = id := rfl
    rw [hid, List.map_id]
  rw [htr]
  exact executeGroups_flatten_perm order tasks

/-- C5 witness: the grouping properties instantiated on a concrete pair of
tasks, one ordered and one unordered, every execution succeeding. -/
theorem C5_orchestrator_grouping_witness :
    List.Sorted (· < ·)
      ((executeGroups Task.get_task_order [cfgNoOrder, cfgEx]).map Prod.fst) ∧
    ((monitorTrace Task.get_task_order (fun _ => Except.ok ())
        [cfgNoOrder, cfgEx]).map Prod.fst).Perm [cfgNoOrder, cfgEx] ∧
    List.Pairwise (fun a b => Task.get_task_order a.1 ≤ Task.get_task_order b.1)
      (monitorTrace Task.get_task_order (fun _ => Except.ok ()) [cfgNoOrder, cfgEx]) ∧
    (∀ p ∈ executeGroups Task.get_task_order [cfgNoOrder, cfgEx], ∀ t ∈ p.2,
      Task.get_task_order t = p.1) :=
  C5_orchestrator_grouping Task.get_task_order (fun _ => Except.ok ())
    [cfgNoOrder, cfgEx]

/-- C6 counterexample: with an endpoint configured with `task_order`
`usize::MAX`, the absent-order task's key does not sort after that present
value — the two keys are equal, and the two tasks land in one shared group,
so the absent-order value does not sort strictly after every present value
as claimed. -/
theorem C6_counterexample :
    Task.get_task_order cfgMaxOrder = Task.get_task_order cfgNoOrder ∧
    ¬ Task.get_task_order cfgMaxOrder < Task.get_task_order cfgNoOrder ∧
    executeGroups Task.get_task_order [cfgMaxOrder, cfgNoOrder] =
      [(USIZE_MAX, [cfgMaxOrder, cfgNoOrder])] :=
  ⟨rfl, by decide, by decide⟩

/-- C6 as amended: `get_task_order` returns the configured `task_order` when
present and `usize::MAX` when absent; `usize::MAX` is strictly greater than
every present value below `usize::MAX` and ties with a configured
`usize::MAX`; consequently, among tasks whose configured orders are valid
`usize` values, an absent-order task belongs to the group with the greatest
key — the last-executed group. -/
theorem C6_absent_order_runs_last :
    (∀ (cfg : ApiConfig) (n : Nat), cfg.task_order = some n →
      Task.get_task_order cfg = n) ∧
    (∀ cfg : ApiConfig, cfg.task_order = none →
      Task.get_task_order cfg = USIZE_MAX) ∧
    (∀ (cfgA cfgP : ApiConfig) (v : Nat), cfgA.task_order = none →
      cfgP.task_order = some v → v < USIZE_MAX →
      Task.get_task_order cfgP < Task.get_task_order cfgA) ∧
    (∀ cfgA cfgP : ApiConfig, cfgA.task_order = none →
      cfgP.task_order = some USIZE_MAX →
      Task.get_task_order cfgP = Task.get_task_order cfgA) ∧
    (∀ (tasks : List ApiConfig) (t : ApiConfig), t ∈ tasks → t.task_order = none →
      (∀ u ∈ tasks, ∀ n, u.task_order = some n → n ≤ USIZE_MAX) →
      (∀ p ∈ executeGroups Task.get_task_order tasks,
        p.1 ≤ Task.get_task_order t) ∧
      (∃ p ∈ executeGroups Task.get_task_order tasks,
        p.1 = Task.get_task_order t ∧ t ∈ p.2)) := by
  refine ⟨?_, ?_, ?_, ?_, ?_⟩
  · intro cfg n h; simp [Task.get_task_order, h]
  · intro cfg h; simp [Task.get_task_order, h]
  · intro cfgA cfgP v hA hP hv
    simp only [Task.get_task_order, hA, hP, Option.getD_some, Option.getD_none]
    exact hv
  · intro cfgA cfgP hA hP
    simp [Task.get_task_order, hA, hP]
  · intro tasks t ht htord hbound
    have htmax : Task.get_task_order t = USIZE_MAX := by
      simp [Task.get_task_order, htord]
    constructor
    · intro p hp
      have hkey : p.1 ∈ (executeGroups Task.get_task_order tasks).map Prod.fst :=
        List.mem_map_of_mem Prod.fst hp
      rw [executeGroups_keys, mem_sortKeys, List.mem_dedup] at hkey
      obtain ⟨u, hu, hval⟩ := List.mem_map.mp hkey
      rw [htmax, ← hval]
      cases hut : u.task_order with
      | none => simp [Task.get_task_order, hut]
      | some n =>
        simp only [Task.get_task_order, hut, Option.getD_some]
        exact hbound u hu n hut
    · have hkey : Task.get_task_order t ∈
          sortKeys ((tasks.map Task.get_task_order).dedup) := by
        rw [mem_sortKeys, List.mem_dedup]
        exact List.mem_map_of_mem Task.get_task_order ht
      refine ⟨_, List.mem_map.mpr ⟨Task.get_task_order t, hkey, rfl⟩, rfl, ?_⟩
      exact List.mem_filter.mpr ⟨ht, by simp⟩

/-- C6 witness: the amended statement instantiated at a concrete ordered
endpoint (order 1) and a concrete absent-order endpoint. -/
theorem C6_absent_order_runs_last_witness :
    Task.get_task_order cfgEx = 1 ∧
    Task.get_task_order cfgNoOrder = USIZE_MAX ∧
    Task.get_task_order cfgEx < Task.get_task_order cfgNoOrder ∧
    (∀ p ∈ executeGroups Task.get_task_order [cfgNoOrder, cfgEx],
      p.1 ≤ Task.get_task_order cfgNoOrder) := by
  have hbound : ∀ u ∈ [cfgNoOrder, cfgEx], ∀ n, u.task_order = some n →
      n ≤ USIZE_MAX := by
    intro u hu n hn
    rcases List.mem_cons.mp hu with rfl | hu2
    · exact absurd hn (by simp [cfgNoOrder, cfgEx])
    · rcases List.mem_cons.mp hu2 with rfl | h3
      · have hn1 : n = 1 := by
          have : (some 1 : Option Nat) = some n := hn
          simpa using this.symm
        subst hn1
        decide
      · simp at h3
  refine ⟨C6_absent_order_runs_last.1 cfgEx 1 rfl,
    C6_absent_order_runs_last.2.1 cfgNoOrder rfl,
    C6_absent_order_runs_last.2.2.1 cfgNoOrder cfgEx 1 rfl rfl (by decide),
    (C6_absent_order_runs_last.2.2.2.2 [cfgNoOrder, cfgEx] cfgNoOrder
      (by simp) rfl hbound).1⟩

end LoadTool
